import Mathlib

/-!
Shallow embedding of `pycaret/internal/utils.py`: the metric-evaluation
engine, the scoped pipeline composer, the transformer normalizer, the CV
splitter selector and the global-config store, together with theorems
checking the module's specification against the code.
-/

namespace PycaretUtils

/-! ## Pipeline composer (`make_internal_pipeline`, `add_estimator_to_pipeline`,
`remove_estimator_from_pipeline`, `estimator_pipeline`) -/

/-- An object that can appear as the second component of a pipeline step:
either the inert `EmptyStep` placeholder from `pycaret.internal.Pipeline`
or an ordinary transformer/estimator object, identified by a tag. -/
inductive PipeObj where
  | emptyStep
  | est (id : Nat)
  deriving DecidableEq

/-- A pipeline step: a `(name, transformer-or-estimator)` pair. -/
abbrev Step := String × PipeObj

/-- A Python-level error escaping one of the embedded functions. -/
inductive PyErr where
  | indexError
  | valueError (msg : String)
  | typeError (msg : String)
  | keyError (key : String)
  | attributeError (msg : String)
  deriving DecidableEq

/-- Result object of `make_internal_pipeline`: a
`pycaret.internal.Pipeline.Pipeline(steps, memory=memory)`. The cache
(`memory`) is kept abstract as an optional tag. -/
structure InternalPipeline where
  steps : List Step
  memory : Option Nat
  deriving DecidableEq

/-- Modelled from the spec: `pycaret.internal.Pipeline.EmptyStep` is not under
`src/`; per the spec it is "a single inert pass-through step (a step that
performs no transformation)", so its transform is the identity on data. -/
def EmptyStep_transform (X : List Int) : List Int := X

/-- Embeds `make_internal_pipeline`: an empty (falsy) step list is replaced by
the single `("passthrough", EmptyStep())` step and the memory argument is
reset to `None`; otherwise the pipeline is built from the given steps and
memory. -/
def make_internal_pipeline (internal_pipeline_steps : List Step)
    (memory : Option Nat) : InternalPipeline :=
  if internal_pipeline_steps.isEmpty then
    { steps := [("passthrough", PipeObj.emptyStep)], memory := none }
  else
    { steps := internal_pipeline_steps, memory := memory }

/-- Embeds `add_estimator_to_pipeline`: appends `("actual_estimator", estimator)`
to the pipeline's step list. -/
def add_estimator_to_pipeline (steps : List Step) (estimator : PipeObj) :
    List Step :=
  steps ++ [("actual_estimator", estimator)]

/-- Embeds `remove_estimator_from_pipeline`: reads `pipeline.steps[-1]`
(raising `IndexError` on an empty list, as Python does) and pops the last
step only when its name is exactly `"actual_estimator"`. -/
def remove_estimator_from_pipeline (steps : List Step) :
    Except PyErr (List Step) :=
  match steps.getLast? with
  | none => Except.error PyErr.indexError
  | some st =>
      if st.1 = "actual_estimator" then Except.ok steps.dropLast
      else Except.ok steps

/-- Embeds the `estimator_pipeline` context manager around a scope body.
`__enter__` appends the estimator step and hands the pipeline to the body;
the body may mutate the shared step list and either return a value or raise;
`__exit__` (which Python runs on every exit path, normal or exceptional)
then applies `remove_estimator_from_pipeline` to the step list as the body
left it. The result records the body's outcome and the final step list. -/
def estimator_pipeline_run {β : Type} (steps : List Step) (estimator : PipeObj)
    (body : List Step → Except PyErr β × List Step) :
    Except PyErr β × Except PyErr (List Step) :=
  let entered := add_estimator_to_pipeline steps estimator
  let res := body entered
  (res.1, remove_estimator_from_pipeline res.2)

/-- Number of steps named `"actual_estimator"` in a step list. -/
def countActualEstimator (steps : List Step) : Nat :=
  (steps.filter (fun st => st.1 = "actual_estimator")).length

/-- The step-list invariant stated by the spec: at most one step named
`"actual_estimator"`, and when one is present it is the last step. -/
def estimatorInvariant (steps : List Step) : Prop :=
  countActualEstimator steps ≤ 1 ∧
    (countActualEstimator steps = 1 →
      (steps.getLast?.map Prod.fst) = some "actual_estimator")

instance (steps : List Step) : Decidable (estimatorInvariant steps) := by
  unfold estimatorInvariant; infer_instance

theorem remove_add_eq (steps : List Step) (e : PipeObj) :
    remove_estimator_from_pipeline (add_estimator_to_pipeline steps e) =
      Except.ok steps := by
  simp [add_estimator_to_pipeline, remove_estimator_from_pipeline,
    List.getLast?_concat, List.dropLast_concat]

theorem countActualEstimator_append (a b : List Step) :
    countActualEstimator (a ++ b) =
      countActualEstimator a + countActualEstimator b := by
  simp [countActualEstimator, List.filter_append]

/-- C2: entering the scoped-attachment context (`estimator_pipeline.__enter__`)
appends `("actual_estimator", E)` as the pipeline's last step, and exiting
(`__exit__`, run on every exit path, including when the scope body raises)
restores the step list to exactly its pre-scope value, provided the body
leaves the shared step list as it found it. -/
theorem scoped_attachment_appends_and_restores {β : Type}
    (steps : List Step) (estimator : PipeObj)
    (body : List Step → Except PyErr β × List Step)
    (_hne : steps ≠ [])
    (hbody : ∀ s, (body s).2 = s) :
    (add_estimator_to_pipeline steps estimator).getLast? =
        some ("actual_estimator", estimator) ∧
    (estimator_pipeline_run steps estimator body).2 = Except.ok steps := by
  constructor
  · simp [add_estimator_to_pipeline, List.getLast?_concat]
  · show remove_estimator_from_pipeline
        (body (add_estimator_to_pipeline steps estimator)).2 = Except.ok steps
    rw [hbody]
    exact remove_add_eq steps estimator

/-- Witness for C2: a concrete one-step pipeline, with a scope body that
raises; the estimator step is appended on entry and the original step list
is restored on exit. -/
theorem scoped_attachment_appends_and_restores_witness :
    (add_estimator_to_pipeline [("a", PipeObj.est 0)] (PipeObj.est 1)).getLast? =
        some ("actual_estimator", PipeObj.est 1) ∧
    (estimator_pipeline_run [("a", PipeObj.est 0)] (PipeObj.est 1)
        (fun s => ((Except.error PyErr.indexError : Except PyErr Unit), s))).2 =
      Except.ok [("a", PipeObj.est 0)] :=
  scoped_attachment_appends_and_restores [("a", PipeObj.est 0)] (PipeObj.est 1)
    (fun s => ((Except.error PyErr.indexError : Except PyErr Unit), s))
    (by decide) (fun s => rfl)

/-- C6: on a non-empty step list, `remove_estimator_from_pipeline` leaves the
list completely unchanged when its last step is not named exactly
`"actual_estimator"`, and removes exactly the last step when it is. -/
theorem remove_estimator_frame (steps : List Step) (h : steps ≠ []) :
    ((steps.getLast?.map Prod.fst) ≠ some "actual_estimator" →
      remove_estimator_from_pipeline steps = Except.ok steps) ∧
    (∀ e, steps.getLast? = some ("actual_estimator", e) →
      remove_estimator_from_pipeline steps = Except.ok steps.dropLast) := by
  cases hl : steps.getLast? with
  | none => exact absurd (List.getLast?_eq_none_iff.mp hl) h
  | some st =>
      constructor
      · intro hname
        unfold remove_estimator_from_pipeline
        rw [hl]
        have hst : ¬ st.1 = "actual_estimator" := by
          intro hc
          exact hname (by simp [hc])
        simp [hst]
      · intro e he
        unfold remove_estimator_from_pipeline
        rw [hl]
        cases he
        simp

/-- Witness for C6: concrete two-step pipelines, one ending in an unrelated
step (left unchanged), one ending in the estimator step (last step removed). -/
theorem remove_estimator_frame_witness :
    remove_estimator_from_pipeline [("a", PipeObj.est 0), ("b", PipeObj.est 1)] =
        Except.ok [("a", PipeObj.est 0), ("b", PipeObj.est 1)] ∧
    remove_estimator_from_pipeline
        [("a", PipeObj.est 0), ("actual_estimator", PipeObj.est 1)] =
      Except.ok [("a", PipeObj.est 0)] :=
  ⟨(remove_estimator_frame [("a", PipeObj.est 0), ("b", PipeObj.est 1)]
      (by decide)).1 (by decide),
   (remove_estimator_frame
      [("a", PipeObj.est 0), ("actual_estimator", PipeObj.est 1)]
      (by decide)).2 (PipeObj.est 1) rfl⟩

/-- C5 counterexample: a pipeline already carrying its estimator step
satisfies the invariant, yet a second (nested/repeated) scope entry appends
a second `"actual_estimator"` step and the invariant fails. -/
theorem nested_entry_breaks_invariant :
    estimatorInvariant [("actual_estimator", PipeObj.est 1)] ∧
    ¬ estimatorInvariant
        (add_estimator_to_pipeline [("actual_estimator", PipeObj.est 1)]
          (PipeObj.est 2)) := by
  decide

/-- C5 (amended): the step-list invariant is preserved by pipeline
construction and by estimator removal, and by estimator attachment whenever
no `"actual_estimator"` step is already present; nested entry transiently
violates it (see the counterexample), but balanced exits still restore the
original step list because each exit independently checks the last-step
name. -/
theorem composition_preserves_invariant (steps : List Step)
    (e e1 e2 : PipeObj) (memory : Option Nat) :
    (estimatorInvariant steps →
      estimatorInvariant (make_internal_pipeline steps memory).steps) ∧
    (countActualEstimator steps = 0 →
      estimatorInvariant (add_estimator_to_pipeline steps e)) ∧
    (estimatorInvariant steps → ∀ s',
      remove_estimator_from_pipeline steps = Except.ok s' →
      estimatorInvariant s') ∧
    (remove_estimator_from_pipeline
        (add_estimator_to_pipeline (add_estimator_to_pipeline steps e1) e2) =
          Except.ok (add_estimator_to_pipeline steps e1) ∧
      remove_estimator_from_pipeline (add_estimator_to_pipeline steps e1) =
        Except.ok steps) := by
  refine ⟨?_, ?_, ?_, remove_add_eq _ e2, remove_add_eq steps e1⟩
  · intro hinv
    unfold make_internal_pipeline
    by_cases hsteps : steps.isEmpty
    · simp only [hsteps, if_true]
      decide
    · simpa [hsteps] using hinv
  · intro hcount
    constructor
    · unfold add_estimator_to_pipeline
      rw [countActualEstimator_append, hcount]
      simp [countActualEstimator]
    · intro _
      simp [add_estimator_to_pipeline, List.getLast?_concat]
  · intro hinv s' hs'
    unfold remove_estimator_from_pipeline at hs'
    cases hl : steps.getLast? with
    | none => rw [hl] at hs'; cases hs'
    | some st =>
        rw [hl] at hs'
        have hs2 : (if st.1 = "actual_estimator" then Except.ok steps.dropLast
            else (Except.ok steps : Except PyErr (List Step))) =
            Except.ok s' := hs'
        by_cases hae : st.1 = "actual_estimator"
        · rw [if_pos hae] at hs2
          cases hs2
          have hne : steps ≠ [] := by
            intro hc; rw [hc] at hl; cases hl
          have hlast : steps.getLast hne = st := by
            rw [List.getLast?_eq_getLast steps hne] at hl
            exact Option.some_inj.mp hl
          have hconcat : steps.dropLast ++ [st] = steps := by
            rw [← hlast]; exact List.dropLast_append_getLast hne
          have hcount : countActualEstimator steps =
              countActualEstimator steps.dropLast + 1 := by
            rw [← hconcat, countActualEstimator_append]
            simp [countActualEstimator, hae]
          have hzero : countActualEstimator steps.dropLast = 0 := by
            have hle := hinv.1
            omega
          exact ⟨by omega, fun h1 => by omega⟩
        · rw [if_neg hae] at hs2
          cases hs2
          exact hinv

/-- Witness for C5 (amended): concrete pipelines exercising construction,
attachment with no estimator present, removal, and the nested
double-entry/double-exit round trip. -/
theorem composition_preserves_invariant_witness :
    estimatorInvariant
        (make_internal_pipeline [("a", PipeObj.est 0)] (some 7)).steps ∧
    estimatorInvariant
        (add_estimator_to_pipeline [("a", PipeObj.est 0)] (PipeObj.est 1)) ∧
    estimatorInvariant [] ∧
    (remove_estimator_from_pipeline
        (add_estimator_to_pipeline
          (add_estimator_to_pipeline [("a", PipeObj.est 0)] (PipeObj.est 1))
          (PipeObj.est 2)) =
        Except.ok
          (add_estimator_to_pipeline [("a", PipeObj.est 0)] (PipeObj.est 1)) ∧
      remove_estimator_from_pipeline
          (add_estimator_to_pipeline [("a", PipeObj.est 0)] (PipeObj.est 1)) =
        Except.ok [("a", PipeObj.est 0)]) := by
  have h := composition_preserves_invariant [("a", PipeObj.est 0)]
    (PipeObj.est 1) (PipeObj.est 1) (PipeObj.est 2) (some 7)
  have hrem := composition_preserves_invariant
    [("actual_estimator", PipeObj.est 3)]
    (PipeObj.est 1) (PipeObj.est 1) (PipeObj.est 2) (some 7)
  exact ⟨h.1 (by decide), h.2.1 (by decide),
    hrem.2.2.1 (by decide) [] rfl, h.2.2.2⟩

/-- C7: composing an empty step list yields a pipeline with exactly one
step, the inert `("passthrough", EmptyStep())` pass-through (whose transform
is the identity), with the supplied cache ignored (memory `None`); composing
a non-empty step list yields a pipeline with exactly the given steps and the
given cache. -/
theorem make_internal_pipeline_spec (memory memory2 : Option Nat)
    (steps : List Step) (h : steps ≠ []) :
    (make_internal_pipeline [] memory).steps =
        [("passthrough", PipeObj.emptyStep)] ∧
    (make_internal_pipeline [] memory).steps.length = 1 ∧
    (make_internal_pipeline [] memory).memory = none ∧
    (∀ X : List Int, EmptyStep_transform X = X) ∧
    make_internal_pipeline steps memory2 =
      { steps := steps, memory := memory2 } := by
  refine ⟨rfl, rfl, rfl, fun X => rfl, ?_⟩
  have hne : ¬ steps.isEmpty := by
    simpa [List.isEmpty_iff] using h
  simp [make_internal_pipeline, hne]

/-- Witness for C7: a concrete cache and a concrete non-empty step list. -/
theorem make_internal_pipeline_spec_witness :
    (make_internal_pipeline [] (some 3)).steps =
        [("passthrough", PipeObj.emptyStep)] ∧
    (make_internal_pipeline [] (some 3)).memory = none ∧
    make_internal_pipeline [("a", PipeObj.est 0)] (some 4) =
      { steps := [("a", PipeObj.est 0)], memory := some 4 } := by
  have h := make_internal_pipeline_spec (some 3) (some 4)
    [("a", PipeObj.est 0)] (by decide)
  exact ⟨h.1, h.2.2.1, h.2.2.2.2⟩

/-! ## Metric evaluation engine (`calculate_metrics`, `_calculate_metric`) -/

/-- Prediction/label data handed to a scoring function. -/
abbrev Data := List Int

/-- A numeric metric score. -/
abbrev Score := Int

/-- The row's extra keyword arguments (`row.Args`). -/
abbrev ExtraArgs := List (String × Int)

/-- A metric's scoring function as `_calculate_metric` calls it: one entry
point for the call carrying `sample_weight=weights` plus the extra args, and
one for the retry without the sample-weight keyword; each either returns a
score or raises. -/
structure Scorer where
  callWithWeight : Data → Option Data → Option Data → ExtraArgs →
    Except PyErr Score
  callPlain : Data → Option Data → ExtraArgs → Except PyErr Score

/-- A metric-catalog row, with the cells `_calculate_metric` reads: the
score-function cell (`none` when the cell is falsy/disabled), the display
name, the `Target` tag and the extra-arguments dict `Args`. -/
structure MetricRow where
  scoreFunction : Option Scorer
  displayName : String
  target : String
  args : ExtraArgs

/-- Embeds `_calculate_metric`: returns `None` for a row whose score-function
cell is falsy; otherwise picks `pred_proba` as the scoring target when the
row's `Target` is `"pred_proba"` and `pred_` otherwise, tries the call with
`sample_weight=weights` and the row's extra args, on any exception retries
without the sample-weight keyword, on any second exception falls back to the
literal score `0`, and emits `(display_name, score)`. -/
def _calculate_metric (row : MetricRow) (ytest : Data) (pred_ : Data)
    (pred_proba : Option Data) (weights : Option Data) :
    Option (String × Score) :=
  match row.scoreFunction with
  | none => none
  | some f =>
      let target := if row.target = "pred_proba" then pred_proba
        else some pred_
      let calculated_metric :=
        match f.callWithWeight ytest target weights row.args with
        | Except.ok v => v
        | Except.error _ =>
            match f.callPlain ytest target row.args with
            | Except.ok v => v
            | Except.error _ => 0
      some (row.displayName, calculated_metric)

/-- One Python dict assignment `d[k] = v`: overwrites in place (keeping the
key's original insertion position) when the key is already present, appends
otherwise. -/
def dictInsert (d : List (String × Score)) (k : String) (v : Score) :
    List (String × Score) :=
  if d.any (fun p => p.1 = k) then
    d.map (fun p => if p.1 = k then (k, v) else p)
  else d ++ [(k, v)]

/-- Python `dict(pairs)`: insertion-ordered dict construction from a list of
key-value pairs. -/
def dictOfPairs (l : List (String × Score)) : List (String × Score) :=
  l.foldl (fun d p => dictInsert d p.1 p.2) []

/-- Embeds `calculate_metrics`: applies `_calculate_metric` to every catalog
row in order, drops the `None` results of skipped rows, and builds the
insertion-ordered score dict. The dataframe column-index bookkeeping
(`score_function_idx`, `display_name_idx`) is absorbed into the `MetricRow`
fields. -/
def calculate_metrics (metrics : List MetricRow) (ytest : Data)
    (pred_ : Data) (pred_proba : Option Data) (weights : Option Data) :
    List (String × Score) :=
  dictOfPairs
    ((metrics.map
      (fun row => _calculate_metric row ytest pred_ pred_proba weights)
      ).filterMap id)

/-- C1: for every catalog row with a truthy score-function cell, the scoring
call is attempted in three tiers, stopping at the first that does not raise
— with the sample-weight keyword and the row's extra args, then without the
sample-weight keyword, then the literal score `0`; `_calculate_metric`
always produces an entry for such a row, and a catalog whose only scorer
always raises still yields the `(display_name, 0)` mapping from
`calculate_metrics` instead of propagating the exception. -/
theorem metric_three_tier_fallback (row : MetricRow) (f : Scorer)
    (ytest pred_ : Data) (pred_proba weights : Option Data)
    (target : Option Data)
    (hf : row.scoreFunction = some f)
    (htarget : target =
      if row.target = "pred_proba" then pred_proba else some pred_) :
    (∀ v, f.callWithWeight ytest target weights row.args = Except.ok v →
      _calculate_metric row ytest pred_ pred_proba weights =
        some (row.displayName, v)) ∧
    (∀ e v, f.callWithWeight ytest target weights row.args = Except.error e →
      f.callPlain ytest target row.args = Except.ok v →
      _calculate_metric row ytest pred_ pred_proba weights =
        some (row.displayName, v)) ∧
    (∀ e e2, f.callWithWeight ytest target weights row.args = Except.error e →
      f.callPlain ytest target row.args = Except.error e2 →
      _calculate_metric row ytest pred_ pred_proba weights =
        some (row.displayName, 0)) ∧
    (_calculate_metric row ytest pred_ pred_proba weights).isSome = true ∧
    (∀ e e2, f.callWithWeight ytest target weights row.args = Except.error e →
      f.callPlain ytest target row.args = Except.error e2 →
      calculate_metrics [row] ytest pred_ pred_proba weights =
        [(row.displayName, 0)]) := by
  subst htarget
  refine ⟨?_, ?_, ?_, ?_, ?_⟩
  · intro v hcall
    simp [_calculate_metric, hf, hcall]
  · intro e v hcall1 hcall2
    simp [_calculate_metric, hf, hcall1, hcall2]
  · intro e e2 hcall1 hcall2
    simp [_calculate_metric, hf, hcall1, hcall2]
  · simp [_calculate_metric, hf]
  · intro e e2 hcall1 hcall2
    simp [calculate_metrics, _calculate_metric, hf, hcall1, hcall2,
      dictOfPairs, dictInsert]

/-- A scorer that raises on every call, in both call shapes. -/
def alwaysRaisingScorer : Scorer :=
  { callWithWeight := fun _ _ _ _ => Except.error (PyErr.typeError "bad"),
    callPlain := fun _ _ _ => Except.error (PyErr.valueError "bad") }

/-- A catalog row named "MetricName" whose scoring function always raises. -/
def alwaysRaisingRow : MetricRow :=
  { scoreFunction := some alwaysRaisingScorer,
    displayName := "MetricName", target := "pred", args := [] }

/-- Witness for C1: a concrete always-raising metric; `calculate_metrics`
returns the `("MetricName", 0)` mapping instead of raising. -/
theorem metric_three_tier_fallback_witness :
    calculate_metrics [alwaysRaisingRow] [1, 0] [0, 0] none none =
      [("MetricName", 0)] :=
  (metric_three_tier_fallback alwaysRaisingRow alwaysRaisingScorer
    [1, 0] [0, 0] none none (some [0, 0]) rfl rfl).2.2.2.2
    (PyErr.typeError "bad") (PyErr.valueError "bad") rfl rfl

theorem dictInsert_of_not_mem (d : List (String × Score)) (k : String)
    (v : Score) (h : k ∉ d.map Prod.fst) : dictInsert d k v = d ++ [(k, v)] := by
  unfold dictInsert
  have hany : d.any (fun p => p.1 = k) = false := by
    rw [List.any_eq_false]
    intro p hp
    simp only [decide_eq_true_eq]
    intro hc
    exact h (List.mem_map.mpr ⟨p, hp, hc⟩)
  simp [hany]

theorem foldl_dictInsert_of_nodup (l acc : List (String × Score))
    (h : (acc.map Prod.fst ++ l.map Prod.fst).Nodup) :
    l.foldl (fun d p => dictInsert d p.1 p.2) acc = acc ++ l := by
  induction l generalizing acc with
  | nil => simp
  | cons p tl ih =>
      have hk : p.1 ∉ acc.map Prod.fst := by
        intro hc
        rcases List.nodup_append.mp h with ⟨_, _, hdisj⟩
        exact hdisj hc (by simp)
      rw [List.foldl_cons, dictInsert_of_not_mem acc p.1 p.2 hk]
      have h2 : ((acc ++ [(p.1, p.2)]).map Prod.fst ++ tl.map Prod.fst).Nodup := by
        simpa using h
      rw [ih (acc ++ [(p.1, p.2)]) h2]
      simp

theorem dictOfPairs_of_nodup (l : List (String × Score))
    (h : (l.map Prod.fst).Nodup) : dictOfPairs l = l := by
  unfold dictOfPairs
  rw [foldl_dictInsert_of_nodup l [] (by simpa using h)]
  simp

theorem _calculate_metric_eq_none_iff (row : MetricRow) (ytest pred_ : Data)
    (pred_proba weights : Option Data) :
    _calculate_metric row ytest pred_ pred_proba weights = none ↔
      row.scoreFunction = none := by
  cases hrow : row.scoreFunction <;> simp [_calculate_metric, hrow]

theorem _calculate_metric_keys (metrics : List MetricRow)
    (ytest pred_ : Data) (pred_proba weights : Option Data) :
    ((metrics.filterMap
        (fun row => _calculate_metric row ytest pred_ pred_proba weights)
      ).map Prod.fst) =
      (metrics.filter (fun row => row.scoreFunction.isSome)).map
        MetricRow.displayName := by
  induction metrics with
  | nil => rfl
  | cons row tl ih =>
      cases hrow : row.scoreFunction with
      | none =>
          rw [List.filterMap_cons_none (by simp [_calculate_metric, hrow])]
          rw [List.filter_cons_of_neg (by simp [hrow])]
          exact ih
      | some f =>
          rw [List.filter_cons_of_pos (by simp [hrow])]
          have hcalc : _calculate_metric row ytest pred_ pred_proba weights =
              some (row.displayName,
                match f.callWithWeight ytest
                    (if row.target = "pred_proba" then pred_proba
                      else some pred_) weights row.args with
                | Except.ok v => v
                | Except.error _ =>
                    match f.callPlain ytest
                        (if row.target = "pred_proba" then pred_proba
                          else some pred_) row.args with
                    | Except.ok v => v
                    | Except.error _ => 0) := by
            simp [_calculate_metric, hrow]
          rw [List.filterMap_cons, hcalc]
          simpa using ih

/-- C4: under the catalog invariant that display names are unique, the score
mapping returned by `calculate_metrics` is exactly the per-row results of
the enabled rows: it has no entry for a row whose score-function cell is
falsy, exactly one entry per enabled row keyed by its display name, keys in
catalog row order, and every enabled row contributes a present numeric
value. -/
theorem evaluate_score_mapping (metrics : List MetricRow)
    (ytest pred_ : Data) (pred_proba weights : Option Data)
    (hnodup : (metrics.map MetricRow.displayName).Nodup) :
    calculate_metrics metrics ytest pred_ pred_proba weights =
      metrics.filterMap
        (fun row => _calculate_metric row ytest pred_ pred_proba weights) ∧
    (calculate_metrics metrics ytest pred_ pred_proba weights).map Prod.fst =
      (metrics.filter (fun row => row.scoreFunction.isSome)).map
        MetricRow.displayName ∧
    (∀ row ∈ metrics, row.scoreFunction = none →
      row.displayName ∉
        (calculate_metrics metrics ytest pred_ pred_proba weights).map
          Prod.fst) ∧
    (∀ row ∈ metrics, row.scoreFunction.isSome → ∃ v : Score,
      (row.displayName, v) ∈
        calculate_metrics metrics ytest pred_ pred_proba weights) := by
  have hkeys := _calculate_metric_keys metrics ytest pred_ pred_proba weights
  have hsub : ((metrics.filter (fun row => row.scoreFunction.isSome)).map
      MetricRow.displayName).Nodup :=
    ((List.filter_sublist metrics).map MetricRow.displayName).nodup hnodup
  have hmain : calculate_metrics metrics ytest pred_ pred_proba weights =
      metrics.filterMap
        (fun row => _calculate_metric row ytest pred_ pred_proba weights) := by
    unfold calculate_metrics
    rw [List.filterMap_map]
    have : (fun row => id
        (_calculate_metric row ytest pred_ pred_proba weights)) =
        (fun row => _calculate_metric row ytest pred_ pred_proba weights) :=
      rfl
    rw [Function.comp_def, this]
    exact dictOfPairs_of_nodup _ (hkeys ▸ hsub)
  refine ⟨hmain, by rw [hmain]; exact hkeys, ?_, ?_⟩
  · intro row hrow hdisabled hmem
    rw [hmain, hkeys] at hmem
    rcases List.mem_map.mp hmem with ⟨row', hrow', hname⟩
    have hrow'mem := List.mem_of_mem_filter hrow'
    have henabled : row'.scoreFunction.isSome := by
      have := List.of_mem_filter hrow'
      simpa using this
    have heq : row' = row :=
      List.inj_on_of_nodup_map hnodup hrow'mem hrow hname
    rw [heq, hdisabled] at henabled
    cases henabled
  · intro row hrow henabled
    rcases Option.isSome_iff_exists.mp henabled with ⟨f, hf⟩
    have hsome : (_calculate_metric row ytest pred_ pred_proba weights).isSome := by
      simp [_calculate_metric, hf]
    rcases Option.isSome_iff_exists.mp hsome with ⟨p, hp⟩
    have hpfst : p.1 = row.displayName := by
      cases hp2 : row.scoreFunction with
      | none => rw [hf] at hp2; cases hp2
      | some g =>
          rw [hf] at hp2
          cases hp2
          simp only [_calculate_metric, hf] at hp
          cases hp
          rfl
    refine ⟨p.2, ?_⟩
    rw [hmain]
    have : (row.displayName, p.2) = p := by
      rw [← hpfst]
    rw [this]
    exact List.mem_filterMap.mpr ⟨row, hrow, hp⟩

/-- A catalog row with a working scorer returning 42 under the
sample-weight call shape. -/
def workingRow : MetricRow :=
  { scoreFunction := some
      { callWithWeight := fun _ _ _ _ => Except.ok 42,
        callPlain := fun _ _ _ => Except.ok 41 },
    displayName := "M1", target := "pred", args := [] }

/-- A disabled catalog row (falsy score-function cell). -/
def disabledRow : MetricRow :=
  { scoreFunction := none, displayName := "M2", target := "pred", args := [] }

/-- Witness for C4: a concrete three-row catalog — a working row, a disabled
row and an always-raising row — evaluates to the two-entry mapping that
skips the disabled row, keeps catalog order and carries the `0` sentinel. -/
theorem evaluate_score_mapping_witness :
    calculate_metrics [workingRow, disabledRow, alwaysRaisingRow]
        [1, 0] [0, 0] none none = [("M1", 42), ("MetricName", 0)] := by
  have h := evaluate_score_mapping [workingRow, disabledRow, alwaysRaisingRow]
    [1, 0] [0, 0] none none (by decide)
  rw [h.1]
  rfl

/-! ## Transformer normalizer (`normalize_custom_transformers`,
`_check_custom_transformer`) -/

/-- A Python value reaching the normalizer: a plain object carrying its
duck-typed capability flags and an identity, an sklearn pipeline (exposing
`fit`/`transform`/`fit_transform` and a `steps` list), a string, a tuple, a
list, or a dict with string keys. -/
inductive TVal where
  | obj (hasFit hasTransform hasFitTransform : Bool) (id : Nat)
  | pipe (steps : List TVal)
  | str (s : String)
  | tup (xs : List TVal)
  | list (xs : List TVal)
  | dict (kvs : List (String × TVal))

/-- Python `hasattr` for the three transformer capabilities: a plain object
reports its flags, an sklearn pipeline exposes all three, and strings,
tuples, lists and dicts expose none. -/
def TVal.hasCaps : TVal → Bool
  | TVal.obj hasFit hasTransform hasFitTransform _ =>
      hasFit && hasTransform && hasFitTransform
  | TVal.pipe _ => true
  | _ => false

/-- Whether a value is a Python `str`. -/
def TVal.isStr : TVal → Bool
  | TVal.str _ => true
  | _ => false

/-- Modelled from the spec: `is_sklearn_pipeline` comes from
`pycaret.internal.validation`, which is not under `src/`; per the spec it
recognizes "a full composed pipeline". -/
def is_sklearn_pipeline : TVal → Bool
  | TVal.pipe _ => true
  | _ => false

/-- Python attribute access `v.steps`: defined on a pipeline, an
`AttributeError` on anything else (in particular on a tuple). -/
def TVal.getSteps : TVal → Except PyErr (List TVal)
  | TVal.pipe steps => Except.ok steps
  | _ => Except.error (PyErr.attributeError "steps")

/-- Python indexing `v[0]` on a tuple. -/
def TVal.getItem0 : TVal → Except PyErr TVal
  | TVal.tup (x :: _) => Except.ok x
  | TVal.tup [] => Except.error PyErr.indexError
  | _ => Except.error (PyErr.typeError "not subscriptable")

/-- Embeds `_check_custom_transformer`: a tuple must have exactly two
elements with a string first element (else `ValueError`/`TypeError`), and
the actual transformer — the tuple's second element, or the value itself —
must expose `fit`, `transform` and `fit_transform` (else `TypeError`). -/
def _check_custom_transformer (transformer : TVal) : Except PyErr Unit :=
  match transformer with
  | TVal.tup [a, b] =>
      if a.isStr then
        if b.hasCaps then Except.ok ()
        else Except.error (PyErr.typeError
          "Transformer must be an object implementing methods 'fit', 'transform' and 'fit_transform'.")
      else Except.error (PyErr.typeError
        "First element of transformer tuple must be a str.")
  | TVal.tup _ =>
      Except.error (PyErr.valueError "Transformer tuple must have a size of 2.")
  | v =>
      if v.hasCaps then Except.ok ()
      else Except.error (PyErr.typeError
        "Transformer must be an object implementing methods 'fit', 'transform' and 'fit_transform'.")

/-- The wrapping applied to a single non-list input: already-tuple inputs
are kept, anything else becomes `("custom_step", input)`. -/
def singleWrap (v : TVal) : TVal :=
  match v with
  | TVal.tup _ => v
  | _ => TVal.tup [TVal.str "custom_step", v]

/-- The per-element loop of the list branch: validates each element and
wraps non-tuples as `(f"custom_step_{i}", element)`. -/
def normalizeListLoop (i : Nat) : List TVal → Except PyErr (List TVal)
  | [] => Except.ok []
  | x :: rest => do
      let _ ← _check_custom_transformer x
      let x' := match x with
        | TVal.tup _ => x
        | _ => TVal.tup [TVal.str ("custom_step_" ++ toString i), x]
      let rest' ← normalizeListLoop (i + 1) rest
      Except.ok (x' :: rest')

/-- Embeds `normalize_custom_transformers`: a dict becomes the list of its
`(key, value)` items; a list is validated and wrapped element-wise; a single
input is validated, wrapped into a pair unless already a tuple, then — if
`is_sklearn_pipeline(transformers[0])` — the code returns
`transformers.steps` (attribute access on the wrapped tuple itself),
otherwise the one-element list of the wrapped pair. -/
def normalize_custom_transformers (transformers : TVal) :
    Except PyErr (List TVal) :=
  let transformers := match transformers with
    | TVal.dict kvs =>
        TVal.list (kvs.map (fun kv => TVal.tup [TVal.str kv.1, kv.2]))
    | t => t
  match transformers with
  | TVal.list xs => normalizeListLoop 0 xs
  | t => do
      let _ ← _check_custom_transformer t
      let t2 := singleWrap t
      let x0 ← t2.getItem0
      if is_sklearn_pipeline x0 then t2.getSteps
      else Except.ok [t2]

theorem TVal.isStr_iff (a : TVal) : a.isStr = true ↔ ∃ s, a = TVal.str s := by
  cases a <;> simp [TVal.isStr]

/-- A concrete full composed pipeline handed to the normalizer as the single
input. -/
def nestedPipeInput : TVal :=
  TVal.pipe [TVal.tup [TVal.str "a", TVal.obj true true true 0]]

/-- C3 counterexample: normalizing a single input that is itself a full
composed pipeline does not return the pipeline's own step list — it returns
the one-element list with the pipeline nested inside the wrapped pair
(wrapping happens first, so the pair's first element is the string
`"custom_step"`, never a pipeline, and the flatten branch cannot fire). -/
theorem pipeline_input_nests_not_flattens :
    normalize_custom_transformers nestedPipeInput =
      Except.ok [TVal.tup [TVal.str "custom_step", nestedPipeInput]] ∧
    normalize_custom_transformers nestedPipeInput ≠
      Except.ok [TVal.tup [TVal.str "a", TVal.obj true true true 0]] := by
  constructor
  · rfl
  · intro h
    rw [show normalize_custom_transformers nestedPipeInput =
        Except.ok [TVal.tup [TVal.str "custom_step", nestedPipeInput]]
        from rfl] at h
    simp [nestedPipeInput] at h

/-- C3 (amended): for every single non-list, non-dict input that passes
validation, the wrapped pair's first element is a string, so the
pipeline-flattening condition `is_sklearn_pipeline(transformers[0])` never
holds and the normalizer always returns the one-element list containing the
wrapped pair; nested pipelines therefore nest rather than flatten. -/
theorem normalize_single_wraps (v : TVal)
    (hnl : ∀ xs, v ≠ TVal.list xs) (hnd : ∀ kvs, v ≠ TVal.dict kvs)
    (hok : _check_custom_transformer v = Except.ok ()) :
    normalize_custom_transformers v = Except.ok [singleWrap v] ∧
    ∃ a, (singleWrap v).getItem0 = Except.ok a ∧ a.isStr = true ∧
      is_sklearn_pipeline a = false := by
  cases v with
  | obj hasFit hasTransform hasFitTransform id =>
      refine ⟨?_, TVal.str "custom_step", rfl, rfl, rfl⟩
      simp only [normalize_custom_transformers, hok]
      rfl
  | pipe steps =>
      refine ⟨?_, TVal.str "custom_step", rfl, rfl, rfl⟩
      simp only [normalize_custom_transformers, hok]
      rfl
  | str s => simp [_check_custom_transformer, TVal.hasCaps] at hok
  | list xs => exact absurd rfl (hnl xs)
  | dict kvs => exact absurd rfl (hnd kvs)
  | tup xs =>
      cases xs with
      | nil => simp [_check_custom_transformer] at hok
      | cons a rest =>
          cases rest with
          | nil => simp [_check_custom_transformer] at hok
          | cons b rest2 =>
              cases rest2 with
              | cons c rest3 => simp [_check_custom_transformer] at hok
              | nil =>
                  have hstr : a.isStr = true := by
                    by_contra hcon
                    simp [_check_custom_transformer,
                      Bool.of_not_eq_true hcon] at hok
                  obtain ⟨s, hs⟩ := (TVal.isStr_iff a).mp hstr
                  subst hs
                  refine ⟨?_, TVal.str s, rfl, rfl, rfl⟩
                  simp only [normalize_custom_transformers, hok]
                  rfl

/-- Witness for C3 (amended): a concrete bare transformer object is wrapped
as `("custom_step", t)` and returned in a one-element list. -/
theorem normalize_single_wraps_witness :
    normalize_custom_transformers (TVal.obj true true true 7) =
      Except.ok [TVal.tup [TVal.str "custom_step",
        TVal.obj true true true 7]] := by
  have h := normalize_single_wraps (TVal.obj true true true 7)
    (fun xs h => nomatch h) (fun kvs h => nomatch h) rfl
  simpa [singleWrap] using h.1

/-! ## CV splitter selector (`get_cv_splitter`) -/

/-- A concrete cross-validation splitter: either a splitter object supplied
by the caller (or the default), or a `KFold` / `StratifiedKFold` built from
a fold count, `random_state=seed` and a shuffle flag. -/
inductive CVSplitter where
  | given (id : Nat)
  | kfold (nSplits : Int) (seed : Int) (shuffle : Bool)
  | stratifiedKFold (nSplits : Int) (seed : Int) (shuffle : Bool)
  deriving DecidableEq

/-- The `fold` argument of `get_cv_splitter`: `None`, an `int`, an object
that is a CV generator, or any other object (carrying its truthiness and
the `repr`/type strings Python would interpolate into the error message). -/
inductive FoldSpec where
  | pynone
  | int (n : Int)
  | cv (s : CVSplitter)
  | other (truthy : Bool) (valueRepr : String) (typeRepr : String)
  deriving DecidableEq

/-- Python truthiness of a `fold` argument: `None` and `0` are falsy, a CV
generator object is truthy, any other object carries its own truthiness. -/
def FoldSpec.truthy : FoldSpec → Bool
  | FoldSpec.pynone => false
  | FoldSpec.int n => n != 0
  | FoldSpec.cv _ => true
  | FoldSpec.other t _ _ => t

/-- Modelled from the spec: `is_sklearn_cv_generator` comes from
`pycaret.internal.validation`, which is not under `src/`; per the spec it
recognizes a value that "already behaves as a splitter (exposes a
split-generation capability)". -/
def is_sklearn_cv_generator : FoldSpec → Bool
  | FoldSpec.cv _ => true
  | _ => false

/-- The `repr` of the fold value, as interpolated into the `TypeError`. -/
def FoldSpec.reprStr : FoldSpec → String
  | FoldSpec.pynone => "None"
  | FoldSpec.int n => toString n
  | FoldSpec.cv _ => "<cv generator>"
  | FoldSpec.other _ v _ => v

/-- The `type(fold)` string, as interpolated into the `TypeError`. -/
def FoldSpec.typeStr : FoldSpec → String
  | FoldSpec.pynone => "<class 'NoneType'>"
  | FoldSpec.int _ => "<class 'int'>"
  | FoldSpec.cv _ => "<class 'sklearn.model_selection.BaseCrossValidator'>"
  | FoldSpec.other _ _ t => t

/-- An error raised by `get_cv_splitter`: the `ValueError` for a wrong
`int_default` strategy tag, or the `TypeError` naming the received fold
value and its type. -/
inductive CVErr where
  | invalidSplitterStrategy
  | invalidFoldSpec (valueRepr : String) (typeRepr : String)
  deriving DecidableEq

/-- Embeds `get_cv_splitter`: a falsy `fold` selects the default splitter;
a CV-generator `fold` is returned unchanged; an `int` fold builds a
`KFold`/`StratifiedKFold` according to `int_default` (any other tag raises
the strategy `ValueError`); anything else raises the `TypeError` naming the
value and its type. -/
def get_cv_splitter (fold : FoldSpec) (default : CVSplitter) (seed : Int)
    (shuffle : Bool) (int_default : String) : Except CVErr CVSplitter :=
  if fold.truthy = false then Except.ok default
  else match fold with
    | FoldSpec.cv s => Except.ok s
    | FoldSpec.int n =>
        if int_default = "kfold" then
          Except.ok (CVSplitter.kfold n seed shuffle)
        else if int_default = "stratifiedkfold" then
          Except.ok (CVSplitter.stratifiedKFold n seed shuffle)
        else Except.error CVErr.invalidSplitterStrategy
    | f => Except.error (CVErr.invalidFoldSpec f.reprStr f.typeStr)

/-- C8: the splitter selector returns the default unchanged for a falsy fold
spec; returns a fold spec that already behaves as a splitter unchanged;
builds a plain or label-stratified K-fold with the given fold count, seed
and shuffle flag for an integer spec according to the strategy tag, failing
with the strategy `ValueError` on any other tag; and fails with the
`TypeError` naming the received value and its type on any other (truthy)
spec. -/
theorem cv_splitter_selection (fold : FoldSpec) (default : CVSplitter)
    (seed : Int) (shuffle : Bool) (int_default : String) :
    (fold.truthy = false →
      get_cv_splitter fold default seed shuffle int_default =
        Except.ok default) ∧
    (∀ s, fold = FoldSpec.cv s →
      get_cv_splitter fold default seed shuffle int_default = Except.ok s) ∧
    (∀ n : Int, fold = FoldSpec.int n → n ≠ 0 →
      (int_default = "kfold" →
        get_cv_splitter fold default seed shuffle int_default =
          Except.ok (CVSplitter.kfold n seed shuffle)) ∧
      (int_default = "stratifiedkfold" →
        get_cv_splitter fold default seed shuffle int_default =
          Except.ok (CVSplitter.stratifiedKFold n seed shuffle)) ∧
      (int_default ≠ "kfold" → int_default ≠ "stratifiedkfold" →
        get_cv_splitter fold default seed shuffle int_default =
          Except.error CVErr.invalidSplitterStrategy)) ∧
    (∀ t v ty, fold = FoldSpec.other t v ty → t = true →
      get_cv_splitter fold default seed shuffle int_default =
        Except.error (CVErr.invalidFoldSpec v ty)) := by
  refine ⟨?_, ?_, ?_, ?_⟩
  · intro hfalsy
    simp [get_cv_splitter, hfalsy]
  · intro s hs
    subst hs
    simp [get_cv_splitter, FoldSpec.truthy]
  · intro n hn hnz
    subst hn
    have htr : FoldSpec.truthy (FoldSpec.int n) = true := by
      simp [FoldSpec.truthy, hnz]
    refine ⟨?_, ?_, ?_⟩
    · intro hk
      simp [get_cv_splitter, htr, hk]
    · intro hsk
      have : ¬ (("stratifiedkfold" : String) = "kfold") := by decide
      simp [get_cv_splitter, htr, hsk, this]
    · intro hk hsk
      simp [get_cv_splitter, htr, hk, hsk]
  · intro t v ty hother ht
    subst hother
    subst ht
    simp [get_cv_splitter, FoldSpec.truthy, FoldSpec.reprStr, FoldSpec.typeStr]

/-- Witness for C8: concrete calls — a `None` fold returning the default, an
existing splitter returned unchanged, `fold=5, strategy="kfold", seed=42,
shuffle=True` building the seeded 5-fold splitter, a bogus strategy tag
failing with the strategy error, and a non-int truthy object failing with
the `TypeError` naming value and type. -/
theorem cv_splitter_selection_witness :
    get_cv_splitter FoldSpec.pynone (CVSplitter.given 9) 42 true "kfold" =
        Except.ok (CVSplitter.given 9) ∧
    get_cv_splitter (FoldSpec.cv (CVSplitter.given 3)) (CVSplitter.given 9)
        42 true "kfold" = Except.ok (CVSplitter.given 3) ∧
    get_cv_splitter (FoldSpec.int 5) (CVSplitter.given 9) 42 true "kfold" =
        Except.ok (CVSplitter.kfold 5 42 true) ∧
    get_cv_splitter (FoldSpec.int 5) (CVSplitter.given 9) 42 true "bogus" =
        Except.error CVErr.invalidSplitterStrategy ∧
    get_cv_splitter (FoldSpec.other true "[1]" "<class 'list'>")
        (CVSplitter.given 9) 42 true "kfold" =
      Except.error (CVErr.invalidFoldSpec "[1]" "<class 'list'>") := by
  have h1 := cv_splitter_selection FoldSpec.pynone (CVSplitter.given 9)
    42 true "kfold"
  have h2 := cv_splitter_selection (FoldSpec.cv (CVSplitter.given 3))
    (CVSplitter.given 9) 42 true "kfold"
  have h3 := cv_splitter_selection (FoldSpec.int 5) (CVSplitter.given 9)
    42 true "kfold"
  have h4 := cv_splitter_selection (FoldSpec.int 5) (CVSplitter.given 9)
    42 true "bogus"
  have h5 := cv_splitter_selection
    (FoldSpec.other true "[1]" "<class 'list'>") (CVSplitter.given 9)
    42 true "kfold"
  exact ⟨h1.1 rfl, h2.2.1 (CVSplitter.given 3) rfl,
    (h3.2.2.1 5 rfl (by decide)).1 rfl,
    (h4.2.2.1 5 rfl (by decide)).2.2 (by decide) (by decide),
    h5.2.2.2 true "[1]" "<class 'list'>" rfl rfl⟩

/-! ## Global config store (`set_config`, `load_config`) -/

/-- A value stored in the global environment dict. -/
inductive GVal where
  | pynone
  | bool (b : Bool)
  | int (n : Int)
  | str (s : String)
  | strList (xs : List String)
  | obj (id : Nat)
  deriving DecidableEq

/-- Python truthiness of a stored value. -/
def GVal.truthy : GVal → Bool
  | GVal.pynone => false
  | GVal.bool b => b
  | GVal.int n => n != 0
  | GVal.str s => s ≠ ""
  | GVal.strList xs => !xs.isEmpty
  | GVal.obj _ => true

/-- Python membership `name in value` for the known-variables entry (a
collection of names); any non-collection value contains nothing. -/
def GVal.containsName : GVal → String → Bool
  | GVal.strList xs, name => xs.contains name
  | _, _ => false

/-- The ambient globals dict `globals_d`, insertion-ordered. -/
abbrev Store := List (String × GVal)

/-- Python dict read `g[k]` (as an `Option`; a missing key is a `KeyError`
at the call sites below). -/
def lookupStore : Store → String → Option GVal
  | [], _ => none
  | p :: rest, k => if p.1 = k then some p.2 else lookupStore rest k

/-- Python dict assignment `g[k] = v`: overwrites in place (keeping the
key's insertion position) when present, appends otherwise. -/
def setStore : Store → String → GVal → Store
  | [], k, v => [(k, v)]
  | p :: rest, k, v =>
      if p.1 = k then (k, v) :: rest else p :: setStore rest k v

/-- Embeds `set_config`: raises `KeyError` when `globals_d` lacks the
`"pycaret_globals"` entry read by the validity check; raises `ValueError`
when the variable is not a known name or is `"pycaret_globals"` itself;
otherwise assigns the variable, then — reading the (updated) store's
`"gpu_param"` entry, a `KeyError` if absent — additionally assigns
`"gpu_n_jobs_param"` when `gpu_param` is falsy and the variable is
`"n_jobs_param"`. -/
def set_config (var : String) (value : GVal) (globals_d : Store) :
    Except PyErr Store :=
  match lookupStore globals_d "pycaret_globals" with
  | none => Except.error (PyErr.keyError "pycaret_globals")
  | some pg =>
      if ¬ (pg.containsName var) ∨ var = "pycaret_globals" then
        Except.error (PyErr.valueError
          ("Variable " ++ var ++ " not found."))
      else
        let g2 := setStore globals_d var value
        match lookupStore g2 "gpu_param" with
        | none => Except.error (PyErr.keyError "gpu_param")
        | some gp =>
            Except.ok
              (if gp.truthy = false ∧ var = "n_jobs_param" then
                setStore g2 "gpu_n_jobs_param" value
              else g2)

/-- Embeds `load_config`, with `joblib.load(file_name)` modelled as the
deserialized snapshot passed in directly: every loaded `(name, value)` pair
is installed into the store unconditionally (no known-variables check), and
the store's `"logger"` entry is then overwritten with the logger object. -/
def load_config (loaded_globals : List (String × GVal))
    (globals_d : Store) : Store :=
  setStore
    (loaded_globals.foldl (fun d p => setStore d p.1 p.2) globals_d)
    "logger" (GVal.obj 0)

theorem lookupStore_setStore_self (g : Store) (k : String) (v : GVal) :
    lookupStore (setStore g k v) k = some v := by
  induction g with
  | nil => simp [setStore, lookupStore]
  | cons p rest ih =>
      by_cases hp : p.1 = k
      · simp [setStore, hp, lookupStore]
      · simp [setStore, hp, lookupStore, ih]

theorem lookupStore_setStore_other (g : Store) (k k2 : String) (v : GVal)
    (h : k2 ≠ k) : lookupStore (setStore g k v) k2 = lookupStore g k2 := by
  induction g with
  | nil => simp [setStore, lookupStore, Ne.symm h]
  | cons p rest ih =>
      by_cases hp : p.1 = k
      · simp [setStore, lookupStore, hp, Ne.symm h]
      · simp [setStore, lookupStore, hp, ih]

theorem lookupStore_foldl_not_mem (l : List (String × GVal)) (g : Store)
    (k : String) (h : k ∉ l.map Prod.fst) :
    lookupStore (l.foldl (fun d p => setStore d p.1 p.2) g) k =
      lookupStore g k := by
  induction l generalizing g with
  | nil => rfl
  | cons p tl ih =>
      have hk1 : k ≠ p.1 := by
        intro hc; exact h (by simp [hc])
      have hk2 : k ∉ tl.map Prod.fst := by
        intro hc; exact h (by simp [hc])
      rw [List.foldl_cons, ih (setStore g p.1 p.2) hk2,
        lookupStore_setStore_other g p.1 k p.2 hk1]

theorem lookupStore_foldl_mem (l : List (String × GVal)) (g : Store)
    (k : String) (v : GVal) (hnodup : (l.map Prod.fst).Nodup)
    (hmem : (k, v) ∈ l) :
    lookupStore (l.foldl (fun d p => setStore d p.1 p.2) g) k = some v := by
  induction l generalizing g with
  | nil => cases hmem
  | cons p tl ih =>
      rcases List.mem_cons.mp hmem with heq | htl
      · subst heq
        have hk : k ∉ tl.map Prod.fst := by
          have := hnodup
          simp only [List.map_cons, List.nodup_cons] at this
          exact this.1
        rw [List.foldl_cons,
          lookupStore_foldl_not_mem tl (setStore g k v) k hk,
          lookupStore_setStore_self]
      · have hnd : (tl.map Prod.fst).Nodup := by
          simp only [List.map_cons, List.nodup_cons] at hnodup
          exact hnodup.2
        rw [List.foldl_cons]
        exact ih (setStore g p.1 p.2) hnd htl

/-- C9 counterexample: loading a snapshot whose name "zz" is not in the
store's known-variables set does not fail — `load_config` silently installs
"zz" (and then overwrites the logger entry). -/
theorem load_config_installs_unknown_name :
    load_config [("zz", GVal.int 5)]
        [("pycaret_globals", GVal.strList ["a"]), ("a", GVal.int 1)] =
      [("pycaret_globals", GVal.strList ["a"]), ("a", GVal.int 1),
        ("zz", GVal.int 5), ("logger", GVal.obj 0)] ∧
    (GVal.strList ["a"]).containsName "zz" = false := by
  decide

/-- C9 (amended): `load_config` performs no known-variables check: it
restores every `(name, value)` pair of the snapshot into the store
unconditionally — names outside the known set are silently installed, never
raised on — then overwrites the store's "logger" entry with the logger
object; names not in the snapshot keep their previous values. -/
theorem load_config_restores_all (snapshot : List (String × GVal))
    (g : Store) (hnodup : (snapshot.map Prod.fst).Nodup) :
    (∀ k v, (k, v) ∈ snapshot → k ≠ "logger" →
      lookupStore (load_config snapshot g) k = some v) ∧
    (∀ k, k ∉ snapshot.map Prod.fst → k ≠ "logger" →
      lookupStore (load_config snapshot g) k = lookupStore g k) ∧
    lookupStore (load_config snapshot g) "logger" = some (GVal.obj 0) := by
  unfold load_config
  refine ⟨?_, ?_, ?_⟩
  · intro k v hmem hk
    rw [lookupStore_setStore_other _ _ _ _ hk]
    exact lookupStore_foldl_mem snapshot g k v hnodup hmem
  · intro k hk hklog
    rw [lookupStore_setStore_other _ _ _ _ hklog]
    exact lookupStore_foldl_not_mem snapshot g k hk
  · exact lookupStore_setStore_self _ _ _

/-- Witness for C9 (amended): a concrete snapshot restoring "a", leaving
"pycaret_globals" untouched and overwriting the logger. -/
theorem load_config_restores_all_witness :
    lookupStore (load_config [("a", GVal.int 9)]
        [("pycaret_globals", GVal.strList ["a"]), ("a", GVal.int 1)]) "a" =
      some (GVal.int 9) ∧
    lookupStore (load_config [("a", GVal.int 9)]
        [("pycaret_globals", GVal.strList ["a"]), ("a", GVal.int 1)])
        "pycaret_globals" = some (GVal.strList ["a"]) ∧
    lookupStore (load_config [("a", GVal.int 9)]
        [("pycaret_globals", GVal.strList ["a"]), ("a", GVal.int 1)])
        "logger" = some (GVal.obj 0) := by
  have h := load_config_restores_all [("a", GVal.int 9)]
    [("pycaret_globals", GVal.strList ["a"]), ("a", GVal.int 1)] (by decide)
  refine ⟨h.1 "a" (GVal.int 9) (by decide) (by decide), ?_, h.2.2⟩
  rw [h.2.1 "pycaret_globals" (by decide) (by decide)]
  decide

/-- C10: when the store's "gpu_param" entry is falsy, a successful
`set_config` of "n_jobs_param" also overwrites the store's
"gpu_n_jobs_param" entry with the same value; for every other variable, a
successful `set_config` sets exactly the named variable's entry and leaves
every other entry of the store unchanged. -/
theorem set_config_frame (g g' : Store) (var : String) (value gp : GVal) :
    (lookupStore g "gpu_param" = some gp → gp.truthy = false →
      set_config "n_jobs_param" value g = Except.ok g' →
      lookupStore g' "n_jobs_param" = some value ∧
      lookupStore g' "gpu_n_jobs_param" = some value) ∧
    (var ≠ "n_jobs_param" →
      set_config var value g = Except.ok g' →
      lookupStore g' var = some value ∧
      ∀ k, k ≠ var → lookupStore g' k = lookupStore g k) := by
  have hgd : ("gpu_n_jobs_param" : String) ≠ "n_jobs_param" := by decide
  constructor
  · intro hgp hfalsy hset
    simp only [set_config] at hset
    cases hpg : lookupStore g "pycaret_globals" with
    | none => simp only [hpg] at hset; cases hset
    | some pg =>
        simp only [hpg] at hset
        by_cases hcond : ¬ (pg.containsName "n_jobs_param") ∨
            ("n_jobs_param" : String) = "pycaret_globals"
        · simp only [if_pos hcond] at hset; cases hset
        · simp only [if_neg hcond] at hset
          have hgp2 : lookupStore (setStore g "n_jobs_param" value)
              "gpu_param" = some gp := by
            rw [lookupStore_setStore_other g "n_jobs_param" "gpu_param"
              value (by decide)]
            exact hgp
          simp only [hgp2, hfalsy] at hset
          simp only [Except.ok.injEq] at hset
          subst hset
          constructor
          · simp only [and_self, ite_true]
            rw [lookupStore_setStore_other _ _ _ _ (Ne.symm hgd)]
            exact lookupStore_setStore_self _ _ _
          · simp only [and_self, ite_true]
            exact lookupStore_setStore_self _ _ _
  · intro hvar hset
    simp only [set_config] at hset
    cases hpg : lookupStore g "pycaret_globals" with
    | none => simp only [hpg] at hset; cases hset
    | some pg =>
        simp only [hpg] at hset
        by_cases hcond : ¬ (pg.containsName var) ∨ var = "pycaret_globals"
        · simp only [if_pos hcond] at hset; cases hset
        · simp only [if_neg hcond] at hset
          cases hgp2 : lookupStore (setStore g var value) "gpu_param" with
          | none => simp only [hgp2] at hset; cases hset
          | some gp2 =>
              simp only [hgp2, hvar, and_false, if_false,
                Except.ok.injEq] at hset
              subst hset
              refine ⟨lookupStore_setStore_self _ _ _, ?_⟩
              intro k hk
              exact lookupStore_setStore_other g var k value hk

/-- The globals dict used by the C10 witness, with a falsy `gpu_param`. -/
def sampleStore : Store :=
  [("pycaret_globals", GVal.strList
      ["n_jobs_param", "gpu_param", "gpu_n_jobs_param", "seed"]),
   ("gpu_param", GVal.bool false), ("n_jobs_param", GVal.int 2),
   ("gpu_n_jobs_param", GVal.int 2), ("seed", GVal.int 1)]

/-- Witness for C10: on the concrete store, setting "n_jobs_param" to 4 also
rewrites "gpu_n_jobs_param" to 4; setting "seed" to 7 touches only "seed". -/
theorem set_config_frame_witness :
    lookupStore
        [("pycaret_globals", GVal.strList
            ["n_jobs_param", "gpu_param", "gpu_n_jobs_param", "seed"]),
         ("gpu_param", GVal.bool false), ("n_jobs_param", GVal.int 4),
         ("gpu_n_jobs_param", GVal.int 4), ("seed", GVal.int 1)]
        "gpu_n_jobs_param" = some (GVal.int 4) ∧
    lookupStore
        [("pycaret_globals", GVal.strList
            ["n_jobs_param", "gpu_param", "gpu_n_jobs_param", "seed"]),
         ("gpu_param", GVal.bool false), ("n_jobs_param", GVal.int 2),
         ("gpu_n_jobs_param", GVal.int 2), ("seed", GVal.int 7)] "seed" =
      some (GVal.int 7) ∧
    lookupStore
        [("pycaret_globals", GVal.strList
            ["n_jobs_param", "gpu_param", "gpu_n_jobs_param", "seed"]),
         ("gpu_param", GVal.bool false), ("n_jobs_param", GVal.int 2),
         ("gpu_n_jobs_param", GVal.int 2), ("seed", GVal.int 7)]
        "gpu_n_jobs_param" = lookupStore sampleStore "gpu_n_jobs_param" := by
  have h1 := (set_config_frame sampleStore
    [("pycaret_globals", GVal.strList
        ["n_jobs_param", "gpu_param", "gpu_n_jobs_param", "seed"]),
     ("gpu_param", GVal.bool false), ("n_jobs_param", GVal.int 4),
     ("gpu_n_jobs_param", GVal.int 4), ("seed", GVal.int 1)]
    "seed" (GVal.int 4) (GVal.bool false)).1 rfl rfl rfl
  have h2 := (set_config_frame sampleStore
    [("pycaret_globals", GVal.strList
        ["n_jobs_param", "gpu_param", "gpu_n_jobs_param", "seed"]),
     ("gpu_param", GVal.bool false), ("n_jobs_param", GVal.int 2),
     ("gpu_n_jobs_param", GVal.int 2), ("seed", GVal.int 7)]
    "seed" (GVal.int 7) (GVal.bool false)).2 (by decide) rfl
  exact ⟨h1.2, h2.1, h2.2 "gpu_n_jobs_param" (by decide)⟩

end PycaretUtils
